import Mathlib

/-!
Verification development for the blackbeard-extension signature-verification
core.  The TypeScript source is shallowly embedded: byte buffers become
`List Nat`, thrown exceptions become `Except`, and the external effects
(HTTP fetch of the key set, `atob` base64 decoding, WebCrypto key import and
ECDSA verification) are abstracted as an environment record of pure
functions, since their outcomes are the only thing the repository code
observes.
-/

set_option autoImplicit false

namespace Blackbeard

/-- Embeds one entry of the key-distribution payload
(interface PublicKey in the source): PEM text, identifier, currency flag. -/
structure PublicKey where
  key : String
  key_identifier : String
  is_current : Bool
  deriving DecidableEq, Repr

/-- Embeds the observable outcome of fetching the key endpoint:
response.ok, and the parsed JSON body (`none` when response.json() throws
or the payload does not hold a key list). -/
structure FetchResponse where
  ok : Bool
  body : Option (List PublicKey)
  deriving DecidableEq, Repr

/-- Environment of external effects consumed by the verification code.
Every field models a call the TypeScript makes into a library or the
platform; the repository code only branches on these results.
 - fetch: the key-endpoint request, keyed by the Authorization bearer
   token actually attached (absent when the user token is falsy);
 - atob: base64 decoding of the signature header (`none` = throws);
 - pemDecode: pemToArrayBuffer, PEM framing strip + atob (`none` = throws);
 - importKey: crypto.subtle.importKey (`none` = rejects);
 - cryptoVerify: crypto.subtle.verify on (key PEM, raw 64-byte signature,
   payload text). -/
structure Env where
  fetch : Option String → FetchResponse
  atob : String → Option (List Nat)
  pemDecode : String → Option (List Nat)
  importKey : List Nat → Option Unit
  cryptoVerify : String → List Nat → String → Bool

/-- JavaScript falsiness of a string-or-undefined header value:
undefined and the empty string are falsy. -/
def falsyOpt : Option String → Bool
  | none => true
  | some s => s == ""

/-- Token actually carried in the Authorization header: the source spreads
`...(tokenForUser && \x7b Authorization ... \x7d)`, so a falsy token adds no
header. -/
def authToken (t : Option String) : Option String :=
  if falsyOpt t then none else t

/-- Embeds keys.public_keys.find((key) => key.key_identifier === keyId):
linear scan, first match wins. -/
def findKey (keys : List PublicKey) (keyId : String) : Option PublicKey :=
  match keys with
  | [] => none
  | k :: rest => if k.key_identifier = keyId then some k else findKey rest keyId

/-- Embeds padStart(data, totalLength) from the asn1js variants
(src/middlewares/verifySignature.ts and the commented app file): exact
length is returned unchanged; one byte over-length is accepted only with a
0x00 guard byte (returning the tail); longer inputs throw; shorter inputs
are left-zero-padded.  A thrown Error is `Except.error ()`. -/
def padStart (data : List Nat) (totalLength : Nat) : Except Unit (List Nat) :=
  if data.length = totalLength then .ok data
  else if totalLength < data.length then
    if data.length = totalLength + 1 ∧ data.head? = some 0 then .ok data.tail
    else .error ()
  else .ok (List.replicate (totalLength - data.length) 0 ++ data)

/-- Embeds the asn1js-variant parseASN1Signature after asn1js has extracted
the content bytes of the two integers: the result is the concatenation of
both components normalized by padStart to 32 bytes. -/
def parseASN1Components (r s : List Nat) : Except Unit (List Nat) :=
  match padStart r 32, padStart s 32 with
  | .ok rp, .ok sp => .ok (rp ++ sp)
  | _, _ => .error ()

/-- TypedArray.prototype.slice(a, b) with JavaScript clamping: indices past
the end are clamped, and an end at or before the start yields the empty
array. -/
def jsSlice (l : List Nat) (a b : Nat) : List Nat :=
  (l.take b).drop a

/-- Embeds the strip step of the hand-rolled parser:
`if (r.length > 32 && r[0] === 0x00) r = r.slice(1)`. -/
def stripGuard (x : List Nat) : List Nat :=
  if 32 < x.length ∧ x.head? = some 0 then x.tail else x

/-- Embeds `result.set(x, 32 - x.length)` into a fresh 32-byte zero block:
a component still longer than 32 bytes makes the offset negative and
`set` throws a RangeError (`Except.error ()`); otherwise the component is
left-zero-padded to 32 bytes. -/
def placeInto (x : List Nat) : Except Unit (List Nat) :=
  if 32 < x.length then .error ()
  else .ok (List.replicate (32 - x.length) 0 ++ x)

/-- Final phase of the hand-rolled parser: strip the guard byte from each
component, then place r at offset 32 - r.length and s at offset
64 - s.length of a 64-byte zero buffer. -/
def finishSig (r s : List Nat) : Except Unit (List Nat) :=
  match placeInto (stripGuard r), placeInto (stripGuard s) with
  | .ok rp, .ok sp => .ok (rp ++ sp)
  | _, _ => .error ()

/-- Embeds the hand-rolled parseASN1Signature (the crypto-import app file):
checks tag 0x30 at index 0, reads the byte at index 1 as a literal one-byte
length and requires it to equal the input length minus 2, checks 0x02 tags
before each component, slices the components out, and finishes via
stripGuard and placeInto.  JavaScript out-of-bounds reads yield undefined:
an undefined tag comparison throws, an undefined rLength makes the
subsequent sTag read undefined and throw, while an undefined sLength makes
the s slice empty and parsing still succeed. -/
def parseASN1SignatureRaw (sig : List Nat) : Except Unit (List Nat) :=
  if sig.get? 0 ≠ some 0x30 then .error ()
  else
    match sig.get? 1 with
    | none => .error ()
    | some totalLength =>
      if totalLength + 2 ≠ sig.length then .error ()
      else if sig.get? 2 ≠ some 0x02 then .error ()
      else
        match sig.get? 3 with
        | none => .error ()
        | some rLength =>
          if sig.get? (4 + rLength) ≠ some 0x02 then .error ()
          else
            match sig.get? (4 + rLength + 1) with
            | none => finishSig (jsSlice sig 4 (4 + rLength)) []
            | some sLength =>
              finishSig (jsSlice sig 4 (4 + rLength))
                (jsSlice sig (4 + rLength + 2) (4 + rLength + 2 + sLength))

/-- Failure causes inside verifySignature, matching the spec taxonomy.
They are internal only: the function boundary collapses them all to
`false`. -/
inductive VerifyError where
  | invalidInput
  | keyFetchFailed
  | keyNotFound
  | invalidKeyEncoding
  | malformedSignature
  deriving DecidableEq, Repr

/-- Embeds the body of the standalone async verifySignature (both app
variants) up to but excluding the surrounding try/catch: each `throw`
becomes an `Except.error`.  The DER codec actually used by the variant is
passed in as `parse`. -/
def verifySignatureE (env : Env) (parse : List Nat → Except Unit (List Nat))
    (payload signatureBase64 keyId : String) (tokenForUser : Option String) :
    Except VerifyError Bool :=
  if payload = "" ∨ signatureBase64 = "" ∨ keyId = "" then .error .invalidInput
  else
    if (env.fetch (authToken tokenForUser)).ok = false then .error .keyFetchFailed
    else
      match (env.fetch (authToken tokenForUser)).body with
      | none => .error .keyFetchFailed
      | some keys =>
        match findKey keys keyId with
        | none => .error .keyNotFound
        | some entry =>
          match env.pemDecode entry.key with
          | none => .error .invalidKeyEncoding
          | some pk =>
            match env.importKey pk with
            | none => .error .invalidKeyEncoding
            | some _ =>
              match env.atob signatureBase64 with
              | none => .error .invalidInput
              | some sigBytes =>
                match parse sigBytes with
                | .error _ => .error .malformedSignature
                | .ok raw => .ok (env.cryptoVerify entry.key raw payload)

/-- Embeds the full standalone verifySignature: the try/catch swallows every
thrown error into `false`; a completed run returns the crypto primitive
result verbatim. -/
def verifySignature (env : Env) (parse : List Nat → Except Unit (List Nat))
    (payload signatureBase64 keyId : String) (tokenForUser : Option String) : Bool :=
  match verifySignatureE env parse payload signatureBase64 keyId tokenForUser with
  | .ok b => b
  | .error _ => false

/-- Observable outcome of a Hono handler or middleware: an HTTP response
with status and text, or falling through to the downstream handler
(`await next()` / the Copilot proxy logic). -/
inductive MwResult where
  | res (status : Nat) (body : String)
  | next
  deriving DecidableEq, Repr

/-- Embeds the exported verifySignature middleware
(src/middlewares/verifySignature.ts).  Unlike the standalone function it
has no boolean boundary: each failure cause surfaces as its own HTTP
response, and anything thrown inside the try block is caught as a 500. -/
def verifySignatureMiddleware (env : Env) (parse : List Nat → Except Unit (List Nat))
    (signature keyId tokenForUser : Option String) (body : String) : MwResult :=
  if falsyOpt signature || falsyOpt keyId then .res 400 "Missing signature headers"
  else
    if (env.fetch (authToken tokenForUser)).ok = false then
      .res 500 "Failed to fetch public keys"
    else
      match (env.fetch (authToken tokenForUser)).body with
      | none => .res 500 "Signature verification failed"
      | some keys =>
        match findKey keys (keyId.getD "") with
        | none => .res 401 "No matching public key found"
        | some entry =>
          match env.pemDecode entry.key with
          | none => .res 500 "Signature verification failed"
          | some pk =>
            match env.importKey pk with
            | none => .res 500 "Signature verification failed"
            | some _ =>
              match env.atob (signature.getD "") with
              | none => .res 500 "Signature verification failed"
              | some sigBytes =>
                match parse sigBytes with
                | .error _ => .res 500 "Signature verification failed"
                | .ok raw =>
                  if env.cryptoVerify entry.key raw body then .next
                  else .res 401 "Invalid signature"

/-- Embeds the app.post('/') route of the app variants: missing headers are
rejected 400 before verifySignature runs; a false verdict is rejected 401;
a missing user token is rejected 400 after verification; only then does the
request proceed to the downstream Octokit/Copilot logic (`next`). -/
def appPost (env : Env) (parse : List Nat → Except Unit (List Nat))
    (signature keyId tokenForUser : Option String) (body : String) : MwResult :=
  if falsyOpt signature || falsyOpt keyId then .res 400 "Missing signature headers"
  else
    if verifySignature env parse body (signature.getD "") (keyId.getD "") tokenForUser
    then
      if falsyOpt tokenForUser then .res 400 "GitHub token is required"
      else .next
    else .res 401 "Invalid signature"

/-- Big-endian value of a byte list, used to state what a long-form DER
length field denotes. -/
def beVal (l : List Nat) : Nat :=
  l.foldl (fun a b => 256 * a + b) 0

/-- Modelled from the spec and the DER standard the spec cites: the input
is a structurally valid DER SEQUENCE whose header uses long-form length
encoding (second byte 0x80 + n with n length bytes, minimally encoded, and
the declared length matching the body exactly).  This is the spec-side
predicate for claim C10; the source never constructs it. -/
def IsLongFormDERSequence (sig : List Nat) : Prop :=
  ∃ n lenB rest,
    sig = 0x30 :: (128 + n) :: (lenB ++ rest) ∧
    1 ≤ n ∧ n ≤ 126 ∧
    lenB.length = n ∧
    rest.length = beVal lenB ∧
    128 ≤ beVal lenB ∧
    (2 ≤ n → 256 ^ (n - 1) ≤ beVal lenB)

/-- DER short-form INTEGER encoding of a content byte list (tag 0x02,
one-byte length, content), used to exhibit concrete well-formed inputs. -/
def derShortInt (content : List Nat) : List Nat :=
  0x02 :: content.length :: content

/-- Environment where the key fetch fails; every other effect is inert. -/
def envDead : Env :=
  ⟨fun _ => ⟨false, none⟩, fun _ => none, fun _ => none, fun _ => none,
   fun _ _ _ => false⟩

/-- Environment where the key fetch succeeds with an empty key set. -/
def envNoKeys : Env :=
  ⟨fun _ => ⟨true, some []⟩, fun _ => none, fun _ => none, fun _ => none,
   fun _ _ _ => false⟩

lemma padStart_ok_length {b out : List Nat} {w : Nat}
    (h : padStart b w = .ok out) : out.length = w := by
  unfold padStart at h
  split at h
  · rename_i h1
    injection h with h2
    subst h2
    exact h1
  · split at h
    · split at h
      · rename_i h1 h2 h3
        injection h with h4
        subst h4
        obtain ⟨hlen, hhd⟩ := h3
        have ht : b.tail.length = b.length - 1 := List.length_tail b
        omega
      · exact absurd h (by simp)
    · rename_i h1 h2
      injection h with h3
      rw [← h3]
      simp only [List.length_append, List.length_replicate]
      omega

lemma placeInto_ok_length {x out : List Nat}
    (h : placeInto x = .ok out) : out.length = 32 := by
  unfold placeInto at h
  split at h
  · exact absurd h (by simp)
  · rename_i h1
    injection h with h2
    rw [← h2]
    simp only [List.length_append, List.length_replicate]
    omega

lemma finishSig_ok_inversion {r s out : List Nat}
    (h : finishSig r s = .ok out) :
    ∃ rp sp, placeInto (stripGuard r) = .ok rp ∧ placeInto (stripGuard s) = .ok sp ∧
      out = rp ++ sp ∧ rp.length = 32 ∧ sp.length = 32 := by
  unfold finishSig at h
  split at h
  · rename_i rp sp hrp hsp
    injection h with h2
    exact ⟨rp, sp, hrp, hsp, h2.symm, placeInto_ok_length hrp, placeInto_ok_length hsp⟩
  · exact absurd h (by simp)

lemma parseRaw_ok_split {sig out : List Nat}
    (h : parseASN1SignatureRaw sig = .ok out) :
    ∃ rp sp, out = rp ++ sp ∧ rp.length = 32 ∧ sp.length = 32 := by
  unfold parseASN1SignatureRaw at h
  split at h
  · exact absurd h (by simp)
  · split at h
    · exact absurd h (by simp)
    · split at h
      · exact absurd h (by simp)
      · split at h
        · exact absurd h (by simp)
        · split at h
          · exact absurd h (by simp)
          · split at h
            · exact absurd h (by simp)
            · split at h
              · obtain ⟨rp, sp, _, _, h1, h2, h3⟩ := finishSig_ok_inversion h
                exact ⟨rp, sp, h1, h2, h3⟩
              · obtain ⟨rp, sp, _, _, h1, h2, h3⟩ := finishSig_ok_inversion h
                exact ⟨rp, sp, h1, h2, h3⟩

lemma parseRaw_ok_inversion {sig out : List Nat}
    (h : parseASN1SignatureRaw sig = .ok out) :
    sig.get? 0 = some 0x30 ∧
    (∃ L, sig.get? 1 = some L ∧ L + 2 = sig.length) ∧
    sig.get? 2 = some 0x02 ∧
    (∃ lr, sig.get? 3 = some lr ∧ sig.get? (4 + lr) = some 0x02) := by
  unfold parseASN1SignatureRaw at h
  split at h
  · exact absurd h (by simp)
  · rename_i h0
    rw [not_ne_iff] at h0
    split at h
    · exact absurd h (by simp)
    · rename_i L hL
      split at h
      · exact absurd h (by simp)
      · rename_i hlen
        split at h
        · exact absurd h (by simp)
        · rename_i h2
          rw [not_ne_iff] at h2
          split at h
          · exact absurd h (by simp)
          · rename_i lr hlr
            split at h
            · exact absurd h (by simp)
            · rename_i hstag
              rw [not_ne_iff] at hstag
              exact ⟨h0, ⟨L, hL, by omega⟩, h2, lr, hlr, hstag⟩

/-- C4: for every byte sequence of length width + 1, padStart returns the
tail when the leading byte is the 0x00 guard byte and throws otherwise;
the zero guard byte is the only legal one-byte over-length case. -/
theorem normalize_guard_byte_cases (b : List Nat) (w : Nat) (h : b.length = w + 1) :
    (b.head? = some 0 → padStart b w = .ok b.tail) ∧
    (b.head? ≠ some 0 → padStart b w = .error ()) := by
  unfold padStart
  constructor
  · intro h0
    rw [if_neg (by omega), if_pos (by omega), if_pos ⟨h, h0⟩]
  · intro h0
    rw [if_neg (by omega), if_pos (by omega), if_neg (fun hc => h0 hc.2)]

/-- Witness for C4 at width 1: a 0x00 guard byte is stripped and a nonzero
leading byte throws. -/
theorem normalize_guard_byte_cases_witness :
    padStart [0, 7] 1 = .ok [7] ∧ padStart [5, 7] 1 = .error () :=
  ⟨(normalize_guard_byte_cases [0, 7] 1 rfl).1 rfl,
   (normalize_guard_byte_cases [5, 7] 1 rfl).2 (by decide)⟩

/-- C5: a component longer than width + 1 bytes always throws; it is never
truncated to width. -/
theorem normalize_overlong_rejected (b : List Nat) (w : Nat) (h : w + 1 < b.length) :
    padStart b w = .error () := by
  unfold padStart
  rw [if_neg (by omega), if_pos (by omega), if_neg (by rintro ⟨h1, h2⟩; omega)]

/-- Witness for C5: a 3-byte component at width 1 throws. -/
theorem normalize_overlong_rejected_witness :
    padStart [1, 2, 3] 1 = .error () :=
  normalize_overlong_rejected [1, 2, 3] 1 (by decide)

/-- C6: a component of at most 32 bytes always succeeds, is left-zero-padded
to exactly 32 bytes ending in the input, and a 32-byte component is
returned unchanged. -/
theorem normalize_short_padded (b : List Nat) (h : b.length ≤ 32) :
    padStart b 32 = .ok (List.replicate (32 - b.length) 0 ++ b) ∧
    (List.replicate (32 - b.length) 0 ++ b).length = 32 ∧
    List.IsSuffix b (List.replicate (32 - b.length) 0 ++ b) ∧
    (b.length = 32 → padStart b 32 = .ok b) := by
  refine ⟨?_, ?_, ⟨List.replicate (32 - b.length) 0, rfl⟩, ?_⟩
  · by_cases h32 : b.length = 32
    · unfold padStart
      rw [if_pos h32, h32]
      simp
    · unfold padStart
      rw [if_neg h32, if_neg (by omega)]
  · simp only [List.length_append, List.length_replicate]
    omega
  · intro h32
    unfold padStart
    rw [if_pos h32]

/-- Witness for C6: a one-byte component is padded to 32 bytes. -/
theorem normalize_short_padded_witness :
    padStart [9] 32 = .ok (List.replicate 31 0 ++ [9]) :=
  (normalize_short_padded [9] (by decide)).1

/-- C7: a successful decode always yields exactly 64 bytes, the normalized
r component followed by the normalized s component; stated both for the
asn1js-variant codec (padStart-normalized components) and for the
hand-rolled parser. -/
theorem decode_result_always_64_bytes :
    (∀ r s out, parseASN1Components r s = .ok out →
       ∃ rp sp, padStart r 32 = .ok rp ∧ padStart s 32 = .ok sp ∧
         out = rp ++ sp ∧ rp.length = 32 ∧ sp.length = 32 ∧ out.length = 64) ∧
    (∀ sig out, parseASN1SignatureRaw sig = .ok out →
       ∃ rp sp, out = rp ++ sp ∧ rp.length = 32 ∧ sp.length = 32 ∧
         out.length = 64) := by
  constructor
  · intro r s out h
    unfold parseASN1Components at h
    split at h
    · rename_i rp sp hrp hsp
      injection h with h2
      have l1 := padStart_ok_length hrp
      have l2 := padStart_ok_length hsp
      exact ⟨rp, sp, hrp, hsp, h2.symm, l1, l2, by rw [← h2]; simp; omega⟩
    · exact absurd h (by simp)
  · intro sig out h
    obtain ⟨rp, sp, h1, h2, h3⟩ := parseRaw_ok_split h
    exact ⟨rp, sp, h1, h2, h3, by rw [h1]; simp; omega⟩

/-- Witness for C7: a two-integer signature decodes to a 64-byte result via
both codecs. -/
theorem decode_result_always_64_bytes_witness :
    ∃ rp sp, padStart [1] 32 = .ok rp ∧ padStart [2] 32 = .ok sp ∧
      ((List.replicate 31 0 ++ [1]) ++ (List.replicate 31 0 ++ [2])) = rp ++ sp ∧
      rp.length = 32 ∧ sp.length = 32 ∧
      ((List.replicate 31 0 ++ [1]) ++ (List.replicate 31 0 ++ [2])).length = 64 :=
  decode_result_always_64_bytes.1 [1] [2]
    ((List.replicate 31 0 ++ [1]) ++ (List.replicate 31 0 ++ [2])) (by rfl)

lemma verifyE_ok_inversion {env : Env} {parse : List Nat → Except Unit (List Nat)}
    {p s k : String} {t : Option String} {b : Bool}
    (h : verifySignatureE env parse p s k t = .ok b) :
    p ≠ "" ∧ s ≠ "" ∧ k ≠ "" ∧
    (env.fetch (authToken t)).ok = true ∧
    ∃ keys entry bs raw,
      (env.fetch (authToken t)).body = some keys ∧
      findKey keys k = some entry ∧
      env.atob s = some bs ∧
      parse bs = .ok raw ∧
      b = env.cryptoVerify entry.key raw p := by
  unfold verifySignatureE at h
  split at h
  · exact absurd h (by simp)
  · rename_i hne
    push_neg at hne
    obtain ⟨hp, hs, hk⟩ := hne
    split at h
    · exact absurd h (by simp)
    · rename_i hok
      simp only [Bool.not_eq_false] at hok
      split at h
      · exact absurd h (by simp)
      · rename_i keys hbody
        split at h
        · exact absurd h (by simp)
        · rename_i entry hfind
          split at h
          · exact absurd h (by simp)
          · rename_i pk hpem
            split at h
            · exact absurd h (by simp)
            · rename_i u himp
              split at h
              · exact absurd h (by simp)
              · rename_i bs hatob
                split at h
                · exact absurd h (by simp)
                · rename_i raw hparse
                  injection h with hb
                  exact ⟨hp, hs, hk, hok, keys, entry, bs, raw,
                    hbody, hfind, hatob, hparse, hb.symm⟩

lemma verify_false_of_error {env : Env} {parse : List Nat → Except Unit (List Nat)}
    {p s k : String} {t : Option String} {e : VerifyError}
    (h : verifySignatureE env parse p s k t = .error e) :
    verifySignature env parse p s k t = false := by
  unfold verifySignature
  rw [h]

/-- C1: the verify operation is a total boolean function; every listed
failure — empty message, empty signature string, empty key identifier,
non-success or malformed key fetch, unknown key identifier, base64 decode
failure of the signature, malformed DER signature — makes it return false
rather than propagate an exception (the try/catch swallows every throw). -/
theorem verify_fails_closed (env : Env) (parse : List Nat → Except Unit (List Nat))
    (p s k : String) (t : Option String)
    (h : p = "" ∨ s = "" ∨ k = "" ∨
         (env.fetch (authToken t)).ok = false ∨
         (env.fetch (authToken t)).body = none ∨
         (∃ keys, (env.fetch (authToken t)).body = some keys ∧ findKey keys k = none) ∨
         env.atob s = none ∨
         (∃ bs, env.atob s = some bs ∧ parse bs = .error ())) :
    verifySignature env parse p s k t = false := by
  rcases hE : verifySignatureE env parse p s k t with b | e
  case error => exact verify_false_of_error hE
  case ok =>
    exfalso
    obtain ⟨hp, hs, hk, hok, keys, entry, bs, raw, hbody, hfind, hatob, hparse, hb⟩ :=
      verifyE_ok_inversion hE
    rcases h with h | h | h | h | h | h | h | h
    · exact hp h
    · exact hs h
    · exact hk h
    · rw [h] at hok
      exact Bool.noConfusion hok
    · rw [h] at hbody
      exact Option.noConfusion hbody
    · obtain ⟨keys2, hb2, hf2⟩ := h
      rw [hbody] at hb2
      injection hb2 with he
      subst he
      rw [hf2] at hfind
      exact Option.noConfusion hfind
    · rw [h] at hatob
      exact Option.noConfusion hatob
    · obtain ⟨bs2, ha2, hp2⟩ := h
      rw [hatob] at ha2
      injection ha2 with he
      subst he
      rw [hp2] at hparse
      exact Except.noConfusion hparse

/-- Witness for C1: concrete failing runs return false; shown for an empty
message and for a failing key fetch. -/
theorem verify_fails_closed_witness :
    verifySignature envDead parseASN1SignatureRaw "" "c2ln" "kid" none = false ∧
    verifySignature envDead parseASN1SignatureRaw "hello" "c2ln" "kid" none = false :=
  ⟨verify_fails_closed envDead parseASN1SignatureRaw "" "c2ln" "kid" none
     (Or.inl rfl),
   verify_fails_closed envDead parseASN1SignatureRaw "hello" "c2ln" "kid" none
     (Or.inr (Or.inr (Or.inr (Or.inl rfl))))⟩

/-- C3 counterexample: two verification attempts that fail for different
internal reasons (key fetch failure versus unknown key identifier) produce
distinct outcomes observable to the remote caller through the middleware
variant, which echoes a distinct status and text per cause instead of a
single uniform false. -/
theorem middleware_distinct_failure_responses :
    verifySignatureMiddleware envDead parseASN1SignatureRaw
        (some "c2ln") (some "kid") none "body" =
      .res 500 "Failed to fetch public keys" ∧
    verifySignatureMiddleware envNoKeys parseASN1SignatureRaw
        (some "c2ln") (some "kid") none "body" =
      .res 401 "No matching public key found" ∧
    MwResult.res 500 "Failed to fetch public keys" ≠
      MwResult.res 401 "No matching public key found" := by
  refine ⟨rfl, rfl, ?_⟩
  intro hcon
  exact absurd (MwResult.res.inj hcon).1 (by decide)

/-- C3 amended: within the standalone verify function (both app variants)
any two failing attempts are observationally identical to its caller, both
collapsing to the single boolean false; the middleware variant, however,
surfaces distinct per-cause responses to the remote caller. -/
theorem verify_collapses_failures
    (env1 env2 : Env) (parse1 parse2 : List Nat → Except Unit (List Nat))
    (p1 s1 k1 p2 s2 k2 : String) (t1 t2 : Option String) (e1 e2 : VerifyError)
    (h1 : verifySignatureE env1 parse1 p1 s1 k1 t1 = .error e1)
    (h2 : verifySignatureE env2 parse2 p2 s2 k2 t2 = .error e2) :
    verifySignature env1 parse1 p1 s1 k1 t1 = false ∧
    verifySignature env1 parse1 p1 s1 k1 t1 =
      verifySignature env2 parse2 p2 s2 k2 t2 := by
  unfold verifySignature
  rw [h1, h2]
  exact ⟨rfl, rfl⟩

/-- Witness for the amended C3: a fetch-failure run and a key-not-found run
of the standalone verify both observably return false. -/
theorem verify_collapses_failures_witness :
    verifySignature envDead parseASN1SignatureRaw "p" "c2ln" "kid" none = false ∧
    verifySignature envDead parseASN1SignatureRaw "p" "c2ln" "kid" none =
      verifySignature envNoKeys parseASN1SignatureRaw "p" "c2ln" "kid" none :=
  verify_collapses_failures envDead envNoKeys parseASN1SignatureRaw
    parseASN1SignatureRaw "p" "c2ln" "kid" "p" "c2ln" "kid" none none
    .keyFetchFailed .keyNotFound rfl rfl

lemma findKey_append_first {keyId : String} {pre : List PublicKey}
    (suf : List PublicKey) (r : PublicKey)
    (hpre : ∀ x ∈ pre, x.key_identifier ≠ keyId) (hr : r.key_identifier = keyId) :
    findKey (pre ++ r :: suf) keyId = some r := by
  induction pre with
  | nil => simp [findKey, hr]
  | cons a l ih =>
    have ha : a.key_identifier ≠ keyId := hpre a (by simp)
    simp only [List.cons_append, findKey, if_neg ha]
    exact ih (fun x hx => hpre x (by simp [hx]))

lemma findKey_eq_none {keyId : String} {keys : List PublicKey}
    (h : ∀ x ∈ keys, x.key_identifier ≠ keyId) : findKey keys keyId = none := by
  induction keys with
  | nil => rfl
  | cons a l ih =>
    have ha : a.key_identifier ≠ keyId := h a (by simp)
    simp only [findKey, if_neg ha]
    exact ih (fun x hx => h x (by simp [hx]))

/-- C8: key lookup is a linear scan returning the first record whose
identifier matches the requested one (also when identifiers repeat); when
no record matches, the lookup is empty and verify surfaces the absence as
false, not as an exception. -/
theorem find_first_match_and_absence :
    (∀ (keyId : String) (pre suf : List PublicKey) (r : PublicKey),
       (∀ x ∈ pre, x.key_identifier ≠ keyId) → r.key_identifier = keyId →
       findKey (pre ++ r :: suf) keyId = some r) ∧
    (∀ (keyId : String) (keys : List PublicKey),
       (∀ x ∈ keys, x.key_identifier ≠ keyId) → findKey keys keyId = none) ∧
    (∀ (env : Env) (parse : List Nat → Except Unit (List Nat))
       (p s k : String) (t : Option String) (keys : List PublicKey),
       (env.fetch (authToken t)).body = some keys →
       findKey keys k = none →
       verifySignature env parse p s k t = false) := by
  refine ⟨fun keyId pre suf r hpre hr => findKey_append_first suf r hpre hr,
    fun keyId keys h => findKey_eq_none h, ?_⟩
  intro env parse p s k t keys hbody hnone
  rcases hE : verifySignatureE env parse p s k t with b | e
  case error => exact verify_false_of_error hE
  case ok =>
    exfalso
    obtain ⟨_, _, _, _, keys2, entry, bs, raw, hbody2, hfind, _, _, _⟩ :=
      verifyE_ok_inversion hE
    rw [hbody] at hbody2
    injection hbody2 with he
    subst he
    rw [hnone] at hfind
    exact Option.noConfusion hfind

/-- Witness for C8: with a duplicated identifier the scan returns the first
of the two matching records, and an absent identifier yields none. -/
theorem find_first_match_and_absence_witness :
    findKey [⟨"pemA", "dup", true⟩, ⟨"pemB", "dup", false⟩] "dup" =
      some ⟨"pemA", "dup", true⟩ ∧
    findKey [⟨"pemA", "dup", true⟩] "other" = none :=
  ⟨find_first_match_and_absence.1 "dup" [] [⟨"pemB", "dup", false⟩]
     ⟨"pemA", "dup", true⟩ (by intro x hx; cases hx) rfl,
   find_first_match_and_absence.2.1 "other" [⟨"pemA", "dup", true⟩]
     (by intro x hx; simp at hx; subst hx; decide)⟩

/-- C9: a missing (or empty) signature or key-identifier header is rejected
400 before verify is consulted — the outcome does not depend on the
environment or codec at all — and is distinguishable from the 401 rejection
produced when both headers are present but verification returns false; in
neither case does the request fall through to downstream handling. -/
theorem route_missing_headers_rejected (env env2 : Env)
    (parse parse2 : List Nat → Except Unit (List Nat))
    (signature keyId tokenForUser : Option String) (body : String) :
    ((falsyOpt signature = true ∨ falsyOpt keyId = true) →
       appPost env parse signature keyId tokenForUser body =
         .res 400 "Missing signature headers" ∧
       appPost env parse signature keyId tokenForUser body =
         appPost env2 parse2 signature keyId tokenForUser body ∧
       verifySignatureMiddleware env parse signature keyId tokenForUser body =
         .res 400 "Missing signature headers") ∧
    (falsyOpt signature = false → falsyOpt keyId = false →
       verifySignature env parse body (signature.getD "") (keyId.getD "") tokenForUser
         = false →
       appPost env parse signature keyId tokenForUser body =
         .res 401 "Invalid signature") ∧
    MwResult.res 400 "Missing signature headers" ≠
      MwResult.res 401 "Invalid signature" ∧
    (∀ st bd, MwResult.res st bd ≠ MwResult.next) := by
  refine ⟨?_, ?_, ?_, ?_⟩
  · intro h
    have hc : (falsyOpt signature || falsyOpt keyId) = true := by
      rcases h with h | h <;> simp [h]
    refine ⟨?_, ?_, ?_⟩
    · unfold appPost
      rw [if_pos hc]
    · unfold appPost
      rw [if_pos hc, if_pos hc]
    · unfold verifySignatureMiddleware
      rw [if_pos hc]
  · intro h1 h2 hv
    have hc : (falsyOpt signature || falsyOpt keyId) = false := by
      simp [h1, h2]
    unfold appPost
    rw [if_neg (by simp [hc]), hv]
    simp
  · intro hcon
    exact absurd (MwResult.res.inj hcon).1 (by decide)
  · intro st bd hcon
    exact MwResult.noConfusion hcon

/-- Witness for C9: an absent signature header is rejected 400 under any
environment, and a present-but-invalid signature is rejected 401. -/
theorem route_missing_headers_rejected_witness :
    appPost envDead parseASN1SignatureRaw none (some "kid") none "b" =
      .res 400 "Missing signature headers" ∧
    appPost envDead parseASN1SignatureRaw (some "c2ln") (some "kid") none "b" =
      .res 401 "Invalid signature" :=
  ⟨((route_missing_headers_rejected envDead envNoKeys parseASN1SignatureRaw
      parseASN1SignatureRaw none (some "kid") none "b").1 (Or.inl rfl)).1,
   (route_missing_headers_rejected envDead envNoKeys parseASN1SignatureRaw
      parseASN1SignatureRaw (some "c2ln") (some "kid") none "b").2.1 rfl rfl
     (verify_fails_closed envDead parseASN1SignatureRaw "b" "c2ln" "kid" none
       (Or.inr (Or.inr (Or.inr (Or.inl rfl)))))⟩

lemma parseRaw_longform_error {sig : List Nat} (h : IsLongFormDERSequence sig) :
    parseASN1SignatureRaw sig = .error () := by
  obtain ⟨n, lenB, rest, hsig, hn1, hn126, hlen, hrest, h128, hmin⟩ := h
  subst hsig
  have hlength : (0x30 :: (128 + n) :: (lenB ++ rest)).length = 2 + n + beVal lenB := by
    simp only [List.length_cons, List.length_append, hlen, hrest]
    omega
  cases hp : parseASN1SignatureRaw (0x30 :: (128 + n) :: (lenB ++ rest)) with
  | error u => cases u; rfl
  | ok out =>
    exfalso
    obtain ⟨_, ⟨L, hL, hLlen⟩, h2tag, _⟩ := parseRaw_ok_inversion hp
    have hg1 : (0x30 :: (128 + n) :: (lenB ++ rest)).get? 1 = some (128 + n) := rfl
    rw [hg1] at hL
    injection hL with hLe
    subst hLe
    rw [hlength] at hLlen
    have hbe : beVal lenB = 128 := by omega
    have hn : n = 1 := by
      by_contra hne
      have h2n : 2 ≤ n := by omega
      have hpow := hmin h2n
      have hle : (256 : Nat) ^ 1 ≤ 256 ^ (n - 1) :=
        Nat.pow_le_pow_right (by omega) (by omega)
      simp at hle
      omega
    subst hn
    obtain ⟨b0, hb0⟩ : ∃ b0, lenB = [b0] := by
      cases lenB with
      | nil => simp at hlen
      | cons a l =>
        cases l with
        | nil => exact ⟨a, rfl⟩
        | cons c m => simp at hlen
    subst hb0
    have hb : b0 = 128 := by simpa [beVal] using hbe
    subst hb
    have hg2 : (0x30 :: (128 + 1) :: (([128] : List Nat) ++ rest)).get? 2 = some 128 := rfl
    rw [hg2] at h2tag
    injection h2tag with h2e
    exact absurd h2e (by decide)

/-- C10: the hand-rolled parser succeeds only when the byte at index 1,
read as a literal one-byte length, equals the input length minus 2; every
structurally valid DER SEQUENCE whose header uses long-form length encoding
is therefore rejected, and verify then returns false. -/
theorem handrolled_literal_length_only :
    (∀ sig out, parseASN1SignatureRaw sig = .ok out →
       ∃ L, sig.get? 1 = some L ∧ L + 2 = sig.length) ∧
    (∀ sig, IsLongFormDERSequence sig → parseASN1SignatureRaw sig = .error ()) ∧
    (∀ (env : Env) (p s k : String) (t : Option String) (bs : List Nat),
       env.atob s = some bs → IsLongFormDERSequence bs →
       verifySignature env parseASN1SignatureRaw p s k t = false) := by
  refine ⟨fun sig out h => (parseRaw_ok_inversion h).2.1,
    fun sig h => parseRaw_longform_error h, ?_⟩
  intro env p s k t bs hatob hlong
  rcases hE : verifySignatureE env parseASN1SignatureRaw p s k t with b | e
  case error => exact verify_false_of_error hE
  case ok =>
    exfalso
    obtain ⟨_, _, _, _, keys, entry, bs2, raw, _, _, hatob2, hparse, _⟩ :=
      verifyE_ok_inversion hE
    rw [hatob] at hatob2
    injection hatob2 with he
    subst he
    rw [parseRaw_longform_error hlong] at hparse
    exact Except.noConfusion hparse

/-- Witness for C10: a successful parse exhibits the literal length check,
and a minimal long-form DER SEQUENCE (length 0x81 0x80 with a 128-byte
body) is rejected. -/
theorem handrolled_literal_length_only_witness :
    (∃ L, ([0x30, 6, 2, 1, 5, 2, 1, 7] : List Nat).get? 1 = some L ∧
       L + 2 = ([0x30, 6, 2, 1, 5, 2, 1, 7] : List Nat).length) ∧
    parseASN1SignatureRaw (0x30 :: 129 :: 128 :: List.replicate 128 0) =
      .error () :=
  ⟨handrolled_literal_length_only.1 [0x30, 6, 2, 1, 5, 2, 1, 7]
     ((List.replicate 31 0 ++ [5]) ++ (List.replicate 31 0 ++ [7])) (by rfl),
   handrolled_literal_length_only.2.1 (0x30 :: 129 :: 128 :: List.replicate 128 0)
     ⟨1, [128], List.replicate 128 0, by simp [beVal], by omega, by omega,
      rfl, by simp [beVal], by simp [beVal], by omega⟩⟩

/-- C2 counterexample: a DER SEQUENCE holding three INTEGER elements — a
deviation from the exactly-two-INTEGERs shape — is decoded successfully by
the hand-rolled parser instead of failing: the third element is silently
ignored. -/
theorem decode_accepts_three_integers :
    parseASN1SignatureRaw
        (0x30 :: 9 :: (derShortInt [1] ++ derShortInt [2] ++ derShortInt [3])) =
      .ok ((List.replicate 31 0 ++ [1]) ++ (List.replicate 31 0 ++ [2])) := by
  rfl

/-- C2 amended: a successful decode by the hand-rolled parser guarantees
only the outer 0x30 tag, the literal one-byte length at index 1 matching
the input length minus 2, and 0x02 tags in front of the first and second
elements; content after the second element inside the declared length is
not rejected. -/
theorem decode_checked_structure (sig out : List Nat)
    (h : parseASN1SignatureRaw sig = .ok out) :
    sig.get? 0 = some 0x30 ∧
    (∃ L, sig.get? 1 = some L ∧ L + 2 = sig.length) ∧
    sig.get? 2 = some 0x02 ∧
    (∃ lr, sig.get? 3 = some lr ∧ sig.get? (4 + lr) = some 0x02) :=
  parseRaw_ok_inversion h

/-- Witness for the amended C2: the checked structure facts at a concrete
well-formed two-integer signature. -/
theorem decode_checked_structure_witness :
    ([0x30, 6, 2, 1, 5, 2, 1, 9] : List Nat).get? 0 = some 0x30 ∧
    (∃ L, ([0x30, 6, 2, 1, 5, 2, 1, 9] : List Nat).get? 1 = some L ∧
       L + 2 = ([0x30, 6, 2, 1, 5, 2, 1, 9] : List Nat).length) ∧
    ([0x30, 6, 2, 1, 5, 2, 1, 9] : List Nat).get? 2 = some 0x02 ∧
    (∃ lr, ([0x30, 6, 2, 1, 5, 2, 1, 9] : List Nat).get? 3 = some lr ∧
       ([0x30, 6, 2, 1, 5, 2, 1, 9] : List Nat).get? (4 + lr) = some 0x02) :=
  decode_checked_structure [0x30, 6, 2, 1, 5, 2, 1, 9]
    ((List.replicate 31 0 ++ [5]) ++ (List.replicate 31 0 ++ [9])) (by rfl)

end Blackbeard
